import Mathlib

/-!
Shallow embedding of the job-orchestration core of the 3D building generator
backend (`server/app/main.py`, `server/app/storage.py`, `server/app/schemas.py`,
`server/app/storage_service.py`), together with proofs of the specification
claims about it.

Conventions of the embedding:
* Python floats used for `progress` are modelled as rationals.  The code never
  performs arithmetic on progress values, only comparisons against `0.0` and
  `1.0` and clamping, so the order-faithful rational values `2/10`, `85/100`, …
  stand for the float literals `0.2`, `0.85`, ….
* UUIDs, datetimes and task objects are opaque to the orchestration logic and
  are modelled as natural numbers.
* The SQL job row together with its download events is modelled as one `Job`
  record; the store is an association list from job id to `Job`.
-/

set_option maxHeartbeats 1000000

namespace BuildingGen

/-- `JobStatus` enum from `server/app/schemas.py`. -/
inductive JobStatus where
  | queued
  | processing
  | meshing
  | texturing
  | completed
  | failed
deriving DecidableEq

/-- `JobStatusUpdateRequest` from `server/app/schemas.py`: a partial patch;
`none` models a Python `None` field. -/
structure JobStatusUpdateRequest where
  status : Option JobStatus := none
  progress : Option ℚ := none
  model_file_name : Option String := none
  notes : Option String := none
deriving DecidableEq

/-- The pydantic constructor of `JobStatusUpdateRequest`: the `progress` field
carries `Field(ge=0.0, le=1.0)`, so construction fails (validation error) when
a supplied progress lies outside `[0, 1]`. -/
def mkJobStatusUpdateRequest (st : Option JobStatus) (pr : Option ℚ)
    (mfn : Option String) (notes : Option String) : Option JobStatusUpdateRequest :=
  match pr with
  | none => some { status := st, progress := none, model_file_name := mfn, notes := notes }
  | some x =>
      if 0 ≤ x ∧ x ≤ 1 then
        some { status := st, progress := some x, model_file_name := mfn, notes := notes }
      else
        none

/-- The persisted `Job` row from `server/app/models.py`, together with the
job's ordered download-event timestamps (a separate table in the source,
gathered per job by `AppStateStore._to_reconstruction_job`). -/
structure Job where
  id : Nat
  user_id : String
  upload_id : Nat
  dataset_name : String
  photo_count : Nat
  external_job_id : Option String := none
  status : JobStatus := .queued
  progress : ℚ := 0
  notes : Option String := none
  model_file_name : Option String := none
  created_at : Nat
  updated_at : Nat
  download_events : List Nat := []
deriving DecidableEq

/-- The job part of `AppStateStore.create_upload` (`server/app/storage.py`):
a fresh job starts `queued` with progress `0.0`. -/
def create_job (id : Nat) (owner : String) (upload_id : Nat) (dataset_name : String)
    (photo_count : Nat) (notes : Option String) (now : Nat) : Job :=
  { id := id
    user_id := owner
    upload_id := upload_id
    dataset_name := dataset_name
    photo_count := photo_count
    notes := notes
    status := .queued
    progress := 0
    created_at := now
    updated_at := now }

/-- `AppStateStore.update_job` (`server/app/storage.py`, lines 123–141): apply a
partial patch to a job row.  Absent (`None`) fields are skipped; a supplied
progress `≥ 1.0` without a supplied status promotes the status to `completed`;
`updated_at` is refreshed. -/
def update_job (job : Job) (payload : JobStatusUpdateRequest) (now : Nat) : Job :=
  let job := match payload.status with
    | some s => { job with status := s }
    | none => job
  let job := match payload.progress with
    | some pr =>
        let job := { job with progress := pr }
        if 1 ≤ job.progress ∧ payload.status = none then
          { job with status := .completed }
        else
          job
    | none => job
  let job := match payload.model_file_name with
    | some m => { job with model_file_name := some m }
    | none => job
  let job := match payload.notes with
    | some n => { job with notes := some n }
    | none => job
  { job with updated_at := now }

/-- `ReconstructionJob.clamp_progress` validator (`server/app/schemas.py`,
lines 41–44): `max(0.0, min(value, 1.0))`. -/
def clamp_progress (value : ℚ) : ℚ :=
  max 0 (min value 1)

/-- The API-facing `ReconstructionJob` pydantic model (`server/app/schemas.py`). -/
structure ReconstructionJob where
  id : Nat
  owner_id : String
  dataset_name : String
  photo_count : Nat
  external_job_id : Option String
  status : JobStatus
  progress : ℚ
  notes : Option String
  model_file_name : Option String
  created_at : Nat
  updated_at : Nat
  download_events : List Nat
deriving DecidableEq

/-- `AppStateStore._to_reconstruction_job` (`server/app/storage.py`): convert a
row to the API model; pydantic runs the `clamp_progress` validator on the
`progress` field. -/
def to_reconstruction_job (job : Job) : ReconstructionJob :=
  { id := job.id
    owner_id := job.user_id
    dataset_name := job.dataset_name
    photo_count := job.photo_count
    external_job_id := job.external_job_id
    status := job.status
    progress := clamp_progress job.progress
    notes := job.notes
    model_file_name := job.model_file_name
    created_at := job.created_at
    updated_at := job.updated_at
    download_events := job.download_events }

/-- First-match lookup in an association list (Python `dict` access). -/
def lookupA {β : Type} (k : Nat) : List (Nat × β) → Option β
  | [] => none
  | (k', v) :: rest => if k = k' then some v else lookupA k rest

/-- Insert-or-replace in an association list (Python `d[k] = v`). -/
def upsert {β : Type} (k : Nat) (v : β) : List (Nat × β) → List (Nat × β)
  | [] => [(k, v)]
  | (k', v') :: rest => if k = k' then (k, v) :: rest else (k', v') :: upsert k v rest

/-- Modify the entry at a key, if present. -/
def modifyA {β : Type} (k : Nat) (f : β → β) : List (Nat × β) → List (Nat × β)
  | [] => []
  | (k', v') :: rest => if k = k' then (k', f v') :: rest else (k', v') :: modifyA k f rest

/-- The three execution strategies of `ReconstructionRunner` (`main.py`). -/
inductive Strategy where
  | externalSubmit
  | subprocessPipeline
  | simulatedTimeline
deriving DecidableEq

/-- Process-start configuration read in `ReconstructionRunner.__init__`
(`main.py`, lines 66–80): whether an external client was built from the
environment, the `RECONSTRUCTION_COMMAND` template, the artifact glob-pattern
list, and the `RECONSTRUCTION_ALLOW_SIMULATION` flag. -/
structure RunnerConfig where
  external_client : Bool
  command_template : Option String
  artifact_patterns : List String
  allow_simulation : Bool

/-- Python truthiness of `self.command_template` in `schedule`: configured
means present and non-empty. -/
def templateConfigured (c : RunnerConfig) : Bool :=
  match c.command_template with
  | some t => t ≠ ""
  | none => false

/-- The strategy-selection fallthrough of `ReconstructionRunner.schedule`
(`main.py`, lines 89–108): external client, else command template, else
simulation, else `none` (the `RuntimeError` branch). -/
def selectStrategy (c : RunnerConfig) : Option Strategy :=
  if c.external_client then some .externalSubmit
  else if templateConfigured c then some .subprocessPipeline
  else if c.allow_simulation then some .simulatedTimeline
  else none

/-- An asyncio task driving one job: the job it belongs to, the status updates
it will still apply (one per suspension point), and whether `cancel()` has been
requested.  A cancelled task observes the cancellation at its next suspension
point and applies nothing further. -/
structure TaskRec where
  jobId : Nat
  pending : List JobStatusUpdateRequest
  cancelled : Bool
deriving DecidableEq

/-- Global state of the orchestration core: the next fresh task identity, all
task objects ever created, the runner's `_tasks` dict (job id → task), the job
store, and a logical clock used for `updated_at`. -/
structure SysState where
  nextTid : Nat
  taskRecs : List (Nat × TaskRec)
  registry : List (Nat × Nat)
  jobs : List (Nat × Job)
  now : Nat
deriving DecidableEq

/-- `task.cancel()`: set the cooperative cancellation flag on a task. -/
def cancelTask (tid : Nat) (s : SysState) : SysState :=
  { s with taskRecs := modifyA tid (fun t => { t with cancelled := true }) s.taskRecs }

/-- Result of a `schedule` call: the successor state and the synchronous
error, if any (`RuntimeError` when no strategy is configured). -/
structure SchedResult where
  state : SysState
  error : Option String
deriving DecidableEq

/-- `ReconstructionRunner.schedule` (`main.py`, lines 82–108): if a task is
registered for the job id, cancel it; then select a strategy and register a
fresh task whose pending updates are the selected strategy's updates
(parameter `updatesFor` abstracts the environment-dependent update sequence
each strategy would produce); with no strategy available, raise a
configuration error after the cancellation, creating no task. -/
def schedule (cfg : RunnerConfig) (updatesFor : Strategy → List JobStatusUpdateRequest)
    (jobId : Nat) (s : SysState) : SchedResult :=
  let s := match lookupA jobId s.registry with
    | some tid => cancelTask tid s
    | none => s
  match selectStrategy cfg with
  | some strat =>
      let tid := s.nextTid
      { state :=
          { s with
            nextTid := tid + 1
            taskRecs := upsert tid ⟨jobId, updatesFor strat, false⟩ s.taskRecs
            registry := upsert jobId tid s.registry }
        error := none }
  | none =>
      { state := s
        error := some "Reconstruction pipeline not configured. Set RECONSTRUCTION_COMMAND or enable simulation." }

/-- One cooperative scheduling turn for task `tid`: a cancelled task observes
`CancelledError` at its suspension point and applies no further update; an
uncancelled task applies its next pending status update via
`ReconstructionRunner._update_job` → `AppStateStore.update_job`.  Nothing
removes the task from the runner's `_tasks` dict (the source registers no
done-callback). -/
def runStep (tid : Nat) (s : SysState) : SysState :=
  match lookupA tid s.taskRecs with
  | none => s
  | some t =>
      if t.cancelled then
        { s with taskRecs := modifyA tid (fun t' => { t' with pending := [] }) s.taskRecs }
      else
        match t.pending with
        | [] => s
        | u :: rest =>
            { s with
              jobs := modifyA t.jobId (fun j => update_job j u s.now) s.jobs
              taskRecs := modifyA tid (fun t' => { t' with pending := rest }) s.taskRecs
              now := s.now + 1 }

/-- Events of the orchestration core: a scheduling turn for a task, or an API
call to `schedule` for a job id. -/
inductive Ev where
  | run (tid : Nat)
  | sched (jobId : Nat)
deriving DecidableEq

/-- Interpret one event. -/
def step (cfg : RunnerConfig) (updatesFor : Strategy → List JobStatusUpdateRequest)
    (s : SysState) (e : Ev) : SysState :=
  match e with
  | .run tid => runStep tid s
  | .sched jobId => (schedule cfg updatesFor jobId s).state

/-- Interpret a sequence of events. -/
def runEvents (cfg : RunnerConfig) (updatesFor : Strategy → List JobStatusUpdateRequest)
    (s : SysState) (evs : List Ev) : SysState :=
  evs.foldl (step cfg updatesFor) s

/-- Event lists consisting only of scheduling turns (no `schedule` calls). -/
def RunOnly (evs : List Ev) : Prop :=
  ∀ e ∈ evs, ∃ tid, e = Ev.run tid

/-- The task recorded under `tid`, if any, carries the cancellation flag. -/
def taskCancelled (tid : Nat) (s : SysState) : Prop :=
  ∀ tr, lookupA tid s.taskRecs = some tr → tr.cancelled = true

/-- Two system states agreeing everywhere except possibly on the record of
task `t1`, which is cancelled (when present) on both sides. -/
def AgreeExceptTask (t1 : Nat) (s s' : SysState) : Prop :=
  s.nextTid = s'.nextTid ∧ s.registry = s'.registry ∧ s.jobs = s'.jobs ∧
  s.now = s'.now ∧
  (∀ tid, tid ≠ t1 → lookupA tid s.taskRecs = lookupA tid s'.taskRecs) ∧
  taskCancelled t1 s ∧ taskCancelled t1 s'

/-- `LocalStorageService.save_model_placeholder` (`storage_service.py`, lines
41–44, without a Supabase client): write and return
`data/models/<job_id>.glb`. -/
def save_model_placeholder (jobId : Nat) : String :=
  "data/models/" ++ toString jobId ++ ".glb"

/-- The four steps of `ReconstructionRunner._simulate` (`main.py`, lines
246–251): delay seconds, status, progress, note. -/
def simulateSteps : List (Nat × JobStatus × ℚ × String) :=
  [ (3, .processing, mkRat 2 10, "Running structure-from-motion")
  , (4, .meshing, mkRat 6 10, "Generating dense mesh")
  , (3, .texturing, mkRat 85 100, "Baking textures")
  , (2, .completed, 1, "Reconstruction complete") ]

/-- The status update `_simulate` applies for one step (`main.py`, lines
252–265): the placeholder model is produced and attached only on the
`completed` step. -/
def simulateUpdate (jobId : Nat) (st : JobStatus) (pr : ℚ) (note : String) :
    JobStatusUpdateRequest :=
  { status := some st
    progress := some pr
    notes := some note
    model_file_name :=
      if st = .completed then some (save_model_placeholder jobId) else none }

/-- The status updates an uncancelled run of `_simulate` applies, in order. -/
def simulateUpdates (jobId : Nat) : List JobStatusUpdateRequest :=
  simulateSteps.map fun s => simulateUpdate jobId s.2.1 s.2.2.1 s.2.2.2

/-- Apply a list of status updates to a job in order, the clock advancing by
one per persisted write. -/
def applyUpdates (job : Job) (us : List JobStatusUpdateRequest) (t0 : Nat) : Job :=
  (us.foldl (fun acc u => (update_job acc.1 u acc.2, acc.2 + 1)) (job, t0)).1

/-- Glob matching as `Path.rglob` applies the configured artifact patterns to
file names: `*` matches any (possibly empty) run of characters, any other
character matches itself. -/
def globMatch : List Char → List Char → Bool
  | [], cs => cs.isEmpty
  | '*' :: ps, cs => (cs.tails).any fun suffix => globMatch ps suffix
  | _ :: _, [] => false
  | p :: ps, c :: cs => (p = c) && globMatch ps cs

/-- `ReconstructionRunner._locate_artifact` (`main.py`, lines 267–272): try
the configured patterns in order and, within a pattern, the directory's files
in traversal order; return the first match. -/
def locate_artifact (patterns : List String) (files : List String) : Option String :=
  patterns.findSome? fun pat => files.find? fun f => globMatch pat.data f.data

/-- The default `RECONSTRUCTION_ARTIFACT_PATTERN` list (`main.py`, lines
71–78). -/
def defaultArtifactPatterns : List String :=
  ["model.glb", "model.gltf", "*.glb", "*.gltf", "*.obj", "*.ply"]

/-- `LocalStorageService.prepare_work_dir` (`storage_service.py`, lines
46–55): delete every entry of the job's work directory and recreate it; the
directory it hands back is empty. -/
def prepare_work_dir (_files : List String) : List String :=
  []

/-- Environment of one `_run_pipeline` execution: the spawned command's exit
code, the files it leaves in the prepared work directory, and the stored
reference `LocalStorageService.persist_model_artifact` returns per located
artifact. -/
structure PipelineEnv where
  exitCode : Int
  producedFiles : List String
  persistRef : String → String

/-- `ReconstructionRunner._run_pipeline` (`main.py`, lines 180–243) as the
sequence of status updates the executor applies.  The work directory is
prepared (emptied) during command-template expansion, the command runs in it
leaving `env.producedFiles`, and — as in the source, line 222 — the directory
handed to `_locate_artifact` is the result of calling
`self.storage.prepare_work_dir` once more. -/
def run_pipeline (patterns : List String) (env : PipelineEnv) :
    List JobStatusUpdateRequest :=
  let workDirPrepared : List String := prepare_work_dir []
  let workDirAfterCommand : List String := workDirPrepared ++ env.producedFiles
  let started : JobStatusUpdateRequest :=
    { status := some .processing
      progress := some (mkRat 5 100)
      notes := some "Reconstruction started" }
  if env.exitCode ≠ 0 then
    [started,
     { status := some .failed
       progress := some 0
       notes := some ("Pipeline exited with code " ++ toString env.exitCode) }]
  else
    let dirSearched := prepare_work_dir workDirAfterCommand
    match locate_artifact patterns dirSearched with
    | none =>
        [started,
         { status := some .failed
           progress := some 0
           notes := some "Pipeline finished but no model artifact was found." }]
    | some artifact =>
        [started,
         { status := some .completed
           progress := some 1
           notes := some "Reconstruction complete"
           model_file_name := some (env.persistRef artifact) }]

/-- Python `x or default` on an optional string: `None` and the empty string
fall back to the default. -/
def pyOr (o : Option String) (d : String) : String :=
  match o with
  | some m => if m = "" then d else m
  | none => d

/-- Modelled from the spec: the `ReconstructionStatusCallback` pydantic model
is imported from `schemas` in `main.py` but missing from the source tree.
Following §4.5, the callback carries a job id, an optional artifact URI, and a
reported status, progress and message, all optional patch fields. -/
structure ReconstructionStatusCallback where
  job_id : Nat
  status : Option JobStatus := none
  progress : Option ℚ := none
  message : Option String := none
  model_uri : Option String := none

/-- The status patch `reconstruction_status_callback` builds (`main.py`, lines
438–467), parameterised by the outcome `ingest` of
`LocalStorageService.ingest_artifact_from_uri` per URI: with no artifact URI
or a successful ingestion, the caller's status, progress and message together
with the ingested reference (if any); with a failing ingestion, an override to
`failed`/0.0 with the composed note and no artifact reference. -/
def callbackPatch (ingest : String → Except String String)
    (p : ReconstructionStatusCallback) : JobStatusUpdateRequest :=
  match p.model_uri with
  | none =>
      { status := p.status, progress := p.progress
        notes := p.message, model_file_name := none }
  | some uri =>
      match ingest uri with
      | .ok path =>
          { status := p.status, progress := p.progress
            notes := p.message, model_file_name := some path }
      | .error e =>
          { status := some .failed, progress := some 0
            notes := some (pyOr p.message "Artifact retrieval failed" ++ " – " ++ e)
            model_file_name := none }

/-- `reconstruction_status_callback` (`main.py`, lines 425–472): an unknown
job id is a not-found error raised before any write; otherwise the patch built
from the payload and the ingestion outcome is applied to the job through
`AppStateStore.update_job`. -/
def reconstruction_status_callback (ingest : String → Except String String)
    (jobs : List (Nat × Job)) (p : ReconstructionStatusCallback) (now : Nat) :
    Except String (List (Nat × Job)) :=
  match lookupA p.job_id jobs with
  | none => .error "Job not found"
  | some _ =>
      .ok (modifyA p.job_id (fun j => update_job j (callbackPatch ingest p) now) jobs)

/-- Explicit record form of `update_job`, used to reason about it field by
field. -/
theorem update_job_def (job : Job) (p : JobStatusUpdateRequest) (now : Nat) :
    update_job job p now =
      { id := job.id
        user_id := job.user_id
        upload_id := job.upload_id
        dataset_name := job.dataset_name
        photo_count := job.photo_count
        external_job_id := job.external_job_id
        status :=
          match p.status, p.progress with
          | some s, _ => s
          | none, some pr => if 1 ≤ pr then .completed else job.status
          | none, none => job.status
        progress := p.progress.getD job.progress
        notes := match p.notes with | some n => some n | none => job.notes
        model_file_name :=
          match p.model_file_name with | some m => some m | none => job.model_file_name
        created_at := job.created_at
        updated_at := now
        download_events := job.download_events } := by
  rcases hst : p.status with _ | s <;> rcases hpr : p.progress with _ | pr <;>
    rcases hm : p.model_file_name with _ | m <;> rcases hn : p.notes with _ | n <;>
    simp only [update_job, hst, hpr, hm, hn] <;>
    first
      | rfl
      | (by_cases hc : (1:ℚ) ≤ pr <;> simp [hc])

theorem lookupA_upsert_self {β : Type} (k : Nat) (v : β) (l : List (Nat × β)) :
    lookupA k (upsert k v l) = some v := by
  induction l with
  | nil => simp [upsert, lookupA]
  | cons hd tl ih =>
      obtain ⟨k', v'⟩ := hd
      by_cases h : k = k' <;> simp [upsert, lookupA, h, ih]

theorem lookupA_upsert_ne {β : Type} {k k' : Nat} (h : k ≠ k') (v : β)
    (l : List (Nat × β)) : lookupA k (upsert k' v l) = lookupA k l := by
  induction l with
  | nil => simp [upsert, lookupA, h]
  | cons hd tl ih =>
      obtain ⟨k'', v''⟩ := hd
      by_cases h2 : k' = k''
      · subst h2
        simp [upsert, lookupA, h]
      · by_cases h3 : k = k'' <;> simp [upsert, lookupA, h2, h3, ih]

theorem lookupA_modifyA_self {β : Type} (k : Nat) (f : β → β) (l : List (Nat × β)) :
    lookupA k (modifyA k f l) = (lookupA k l).map f := by
  induction l with
  | nil => simp [modifyA, lookupA]
  | cons hd tl ih =>
      obtain ⟨k', v'⟩ := hd
      by_cases h : k = k' <;> simp [modifyA, lookupA, h, ih]

theorem lookupA_modifyA_ne {β : Type} {k k' : Nat} (h : k ≠ k') (f : β → β)
    (l : List (Nat × β)) : lookupA k (modifyA k' f l) = lookupA k l := by
  induction l with
  | nil => simp [modifyA, lookupA]
  | cons hd tl ih =>
      obtain ⟨k'', v''⟩ := hd
      by_cases h2 : k' = k''
      · subst h2
        simp [modifyA, lookupA, h]
      · by_cases h3 : k = k'' <;> simp [modifyA, lookupA, h2, h3, ih]

theorem keys_upsert_eq {β : Type} (k : Nat) (v : β) (l : List (Nat × β)) :
    (upsert k v l).map Prod.fst =
      if k ∈ l.map Prod.fst then l.map Prod.fst else l.map Prod.fst ++ [k] := by
  induction l with
  | nil => simp [upsert]
  | cons hd tl ih =>
      obtain ⟨k', v'⟩ := hd
      by_cases h : k = k'
      · subst h
        simp [upsert]
      · simp only [upsert, if_neg h, List.map_cons, ih, List.mem_cons]
        have : (k = k' ∨ k ∈ tl.map Prod.fst) ↔ k ∈ tl.map Prod.fst := by simp [h]
        rw [if_congr this rfl rfl]
        by_cases hm : k ∈ tl.map Prod.fst <;> simp [hm]

theorem keys_upsert {β : Type} (k : Nat) (v : β) (l : List (Nat × β)) :
    ((upsert k v l).map Prod.fst).Nodup ↔ (l.map Prod.fst).Nodup := by
  rw [keys_upsert_eq]
  by_cases hm : k ∈ l.map Prod.fst
  · simp [hm]
  · simp [hm, List.nodup_append]

theorem keys_modifyA {β : Type} (k : Nat) (f : β → β) (l : List (Nat × β)) :
    (modifyA k f l).map Prod.fst = l.map Prod.fst := by
  induction l with
  | nil => simp [modifyA]
  | cons hd tl ih =>
      obtain ⟨k', v'⟩ := hd
      by_cases h : k = k' <;> simp [modifyA, h, ih]

/-- C3: a patch supplying `progress ≥ 1.0` and no status makes the updated
job's status `completed` (`AppStateStore.update_job`, storage.py 128–131). -/
theorem update_job_promotes_completed (job : Job) (payload : JobStatusUpdateRequest)
    (now : Nat) (pr : ℚ) (hpr : payload.progress = some pr) (hge : 1 ≤ pr)
    (hst : payload.status = none) :
    (update_job job payload now).status = .completed := by
  rw [update_job_def]
  simp [hpr, hst, hge]

/-- Witness for C3: a concrete job patched with progress `1.0` and no status
ends up `completed`. -/
theorem update_job_promotes_completed_witness :
    (update_job
      (create_job 1 "auth0|u" 2 "barn" 4 none 0)
      { progress := some 1 } 5).status = .completed :=
  update_job_promotes_completed _ _ 5 1 rfl le_rfl rfl

/-- C9: progress always stays in `[0, 1]`: a freshly created job has progress
`0.0`; the pydantic constructor rejects out-of-range patch progress; applying
an accepted patch to an in-range job keeps the stored progress in `[0, 1]`;
and the API-exposed progress is clamped to `[0, 1]` for every job. -/
theorem progress_invariant
    (i : Nat) (owner : String) (u : Nat) (ds : String) (pc : Nat) (nts : Option String)
    (t0 : Nat)
    (st : Option JobStatus) (pr0 : Option ℚ) (mfn nts' : Option String)
    (p : JobStatusUpdateRequest)
    (hmk : mkJobStatusUpdateRequest st pr0 mfn nts' = some p)
    (job : Job) (hlo : 0 ≤ job.progress) (hhi : job.progress ≤ 1) (now : Nat) :
    (create_job i owner u ds pc nts t0).progress = 0 ∧
    (∀ pr, p.progress = some pr → 0 ≤ pr ∧ pr ≤ 1) ∧
    (0 ≤ (update_job job p now).progress ∧ (update_job job p now).progress ≤ 1) ∧
    (∀ j : Job, 0 ≤ (to_reconstruction_job j).progress ∧ (to_reconstruction_job j).progress ≤ 1) := by
  have hrange : ∀ pr, p.progress = some pr → 0 ≤ pr ∧ pr ≤ 1 := by
    intro pr hpr
    cases pr0 with
    | none =>
        simp only [mkJobStatusUpdateRequest, Option.some.injEq] at hmk
        rw [← hmk] at hpr
        simp at hpr
    | some x =>
        simp only [mkJobStatusUpdateRequest] at hmk
        by_cases hx : 0 ≤ x ∧ x ≤ 1
        · rw [if_pos hx, Option.some.injEq] at hmk
          rw [← hmk] at hpr
          simp only [Option.some.injEq] at hpr
          exact hpr ▸ hx
        · rw [if_neg hx] at hmk
          exact absurd hmk (by simp)
  refine ⟨rfl, hrange, ?_, ?_⟩
  · rw [update_job_def]
    cases hpp : p.progress with
    | none => exact ⟨hlo, hhi⟩
    | some pr => exact hrange pr hpp
  · intro j
    unfold to_reconstruction_job clamp_progress
    constructor
    · exact le_max_left 0 _
    · simp only [max_le_iff]
      exact ⟨by norm_num, min_le_right _ 1⟩

/-- Witness for C9: the invariant instantiated at a concrete accepted patch
and a concrete in-range job. -/
theorem progress_invariant_witness :
    (create_job 1 "auth0|u" 2 "barn" 4 none 0).progress = 0 ∧
    (∀ pr, ({ progress := some (mkRat 1 2) } : JobStatusUpdateRequest).progress = some pr →
      0 ≤ pr ∧ pr ≤ 1) ∧
    (0 ≤ (update_job (create_job 1 "auth0|u" 2 "barn" 4 none 0)
        { progress := some (mkRat 1 2) } 7).progress ∧
      (update_job (create_job 1 "auth0|u" 2 "barn" 4 none 0)
        { progress := some (mkRat 1 2) } 7).progress ≤ 1) ∧
    (∀ j : Job, 0 ≤ (to_reconstruction_job j).progress ∧
      (to_reconstruction_job j).progress ≤ 1) :=
  progress_invariant 1 "auth0|u" 2 "barn" 4 none 0 none (some (mkRat 1 2)) none none
    { progress := some (mkRat 1 2) } (by norm_num [mkJobStatusUpdateRequest])
    (create_job 1 "auth0|u" 2 "barn" 4 none 0) le_rfl (by norm_num [create_job]) 7

/-- C10 (frame): `update_job` never touches the job's identity, owner,
dataset, photo count, external id, creation time, upload link or download
events; absent patch fields leave their job fields unchanged — in particular
an absent `model_file_name` never clears a stored model reference, and an
absent status with progress below `1.0` never changes the status. -/
theorem update_job_frame (job : Job) (p : JobStatusUpdateRequest) (now : Nat) :
    (update_job job p now).id = job.id ∧
    (update_job job p now).user_id = job.user_id ∧
    (update_job job p now).upload_id = job.upload_id ∧
    (update_job job p now).dataset_name = job.dataset_name ∧
    (update_job job p now).photo_count = job.photo_count ∧
    (update_job job p now).external_job_id = job.external_job_id ∧
    (update_job job p now).created_at = job.created_at ∧
    (update_job job p now).download_events = job.download_events ∧
    (p.progress = none → (update_job job p now).progress = job.progress) ∧
    (p.model_file_name = none → (update_job job p now).model_file_name = job.model_file_name) ∧
    (p.notes = none → (update_job job p now).notes = job.notes) ∧
    (p.status = none → (∀ pr, p.progress = some pr → pr < 1) →
      (update_job job p now).status = job.status) := by
  rw [update_job_def]
  refine ⟨rfl, rfl, rfl, rfl, rfl, rfl, rfl, rfl, ?_, ?_, ?_, ?_⟩
  · intro h
    simp [h]
  · intro h
    simp [h]
  · intro h
    simp [h]
  · intro hst hlt
    rcases hpr : p.progress with _ | pr
    · simp [hst, hpr]
    · have := hlt pr hpr
      simp [hst, hpr, not_le.mpr this]

/-- Witness for C10: the frame theorem instantiated at a concrete job and a
patch with only notes set; the untouched fields survive. -/
theorem update_job_frame_witness :
    ((({ progress := some (mkRat 1 2) } : JobStatusUpdateRequest)).progress = none →
      (update_job (create_job 1 "auth0|u" 2 "barn" 4 none 0)
        { progress := some (mkRat 1 2) } 9).progress =
        (create_job 1 "auth0|u" 2 "barn" 4 none 0).progress) ∧
    (update_job (create_job 1 "auth0|u" 2 "barn" 4 none 0)
      { progress := some (mkRat 1 2) } 9).status =
      (create_job 1 "auth0|u" 2 "barn" 4 none 0).status := by
  have h := update_job_frame (create_job 1 "auth0|u" 2 "barn" 4 none 0)
    { progress := some (mkRat 1 2) } 9
  exact ⟨h.2.2.2.2.2.2.2.2.1, h.2.2.2.2.2.2.2.2.2.2.2 rfl
    (by intro pr hpr; simp only [Option.some.injEq] at hpr; rw [← hpr]; norm_num)⟩

/-- C2: strategy selection is a fixed-priority function of the process-start
configuration: an external client always wins, else a (truthy) command
template, else the simulation flag; with none of them, `schedule` fails
synchronously with the configuration error — the only synchronous error it
produces — creating no task: next task id, registry, jobs and the set of
existing tasks are untouched. -/
theorem strategy_selection (c : RunnerConfig)
    (upd : Strategy → List JobStatusUpdateRequest) (jobId : Nat) (s : SysState) :
    (c.external_client = true → selectStrategy c = some .externalSubmit) ∧
    (c.external_client = false → templateConfigured c = true →
      selectStrategy c = some .subprocessPipeline) ∧
    (c.external_client = false → templateConfigured c = false →
      c.allow_simulation = true → selectStrategy c = some .simulatedTimeline) ∧
    (selectStrategy c = none ↔
      c.external_client = false ∧ templateConfigured c = false ∧
        c.allow_simulation = false) ∧
    ((schedule c upd jobId s).error.isSome ↔ selectStrategy c = none) ∧
    (selectStrategy c = none →
      (schedule c upd jobId s).state.nextTid = s.nextTid ∧
      (schedule c upd jobId s).state.registry = s.registry ∧
      (schedule c upd jobId s).state.jobs = s.jobs ∧
      (schedule c upd jobId s).state.taskRecs.map Prod.fst = s.taskRecs.map Prod.fst) := by
  refine ⟨?_, ?_, ?_, ?_, ?_, ?_⟩
  · intro h
    simp [selectStrategy, h]
  · intro h1 h2
    simp [selectStrategy, h1, h2]
  · intro h1 h2 h3
    simp [selectStrategy, h1, h2, h3]
  · constructor
    · intro h
      by_cases h1 : c.external_client <;> by_cases h2 : templateConfigured c <;>
        by_cases h3 : c.allow_simulation <;> simp_all [selectStrategy]
    · rintro ⟨h1, h2, h3⟩
      simp [selectStrategy, h1, h2, h3]
  · unfold schedule
    cases hsel : selectStrategy c <;> cases lookupA jobId s.registry <;> simp [hsel]
  · intro hnone
    unfold schedule
    rw [hnone]
    cases hl : lookupA jobId s.registry with
    | none => exact ⟨rfl, rfl, rfl, rfl⟩
    | some tid => exact ⟨rfl, rfl, rfl, keys_modifyA tid _ s.taskRecs⟩

/-- Witness for C2: selection at every branch of concrete configurations, and
a synchronous configuration error for the all-disabled configuration. -/
theorem strategy_selection_witness :
    selectStrategy ⟨true, some "colmap {job_id}", [], true⟩ = some .externalSubmit ∧
    selectStrategy ⟨false, some "colmap {job_id}", [], true⟩ = some .subprocessPipeline ∧
    selectStrategy ⟨false, none, [], true⟩ = some .simulatedTimeline ∧
    (schedule ⟨false, some "", [], false⟩ (fun _ => []) 0
      ⟨0, [], [], [], 0⟩).error.isSome = true := by
  refine ⟨?_, ?_, ?_, ?_⟩
  · exact (strategy_selection ⟨true, some "colmap {job_id}", [], true⟩
      (fun _ => []) 0 ⟨0, [], [], [], 0⟩).1 rfl
  · exact (strategy_selection ⟨false, some "colmap {job_id}", [], true⟩
      (fun _ => []) 0 ⟨0, [], [], [], 0⟩).2.1 rfl (by decide)
  · exact (strategy_selection ⟨false, none, [], true⟩
      (fun _ => []) 0 ⟨0, [], [], [], 0⟩).2.2.1 rfl rfl rfl
  · exact (strategy_selection ⟨false, some "", [], false⟩
      (fun _ => []) 0 ⟨0, [], [], [], 0⟩).2.2.2.2.1.mpr (by decide)

theorem runStep_registry (t : Nat) (s : SysState) :
    (runStep t s).registry = s.registry ∧ (runStep t s).nextTid = s.nextTid := by
  unfold runStep
  cases lookupA t s.taskRecs with
  | none => exact ⟨rfl, rfl⟩
  | some tr =>
      by_cases hc : tr.cancelled
      · simp [hc]
      · cases hp : tr.pending <;> simp [hc, hp]

theorem runStep_taskRec_lookup (t tid : Nat) (s : SysState) :
    ∃ f : TaskRec → TaskRec,
      lookupA tid (runStep t s).taskRecs = (lookupA tid s.taskRecs).map f ∧
      ∀ tr, (f tr).cancelled = tr.cancelled ∧ (f tr).jobId = tr.jobId := by
  unfold runStep
  cases htr : lookupA t s.taskRecs with
  | none => exact ⟨id, by simp, fun tr => ⟨rfl, rfl⟩⟩
  | some tr =>
      by_cases hc : tr.cancelled
      · by_cases he : tid = t
        · subst he
          exact ⟨fun t' => { t' with pending := [] },
            by simp [hc, lookupA_modifyA_self], fun tr => ⟨rfl, rfl⟩⟩
        · exact ⟨id, by simp [hc, lookupA_modifyA_ne he], fun tr => ⟨rfl, rfl⟩⟩
      · cases hp : tr.pending with
        | nil => exact ⟨id, by simp [hc, hp], fun tr => ⟨rfl, rfl⟩⟩
        | cons u rest =>
            by_cases he : tid = t
            · subst he
              exact ⟨fun t' => { t' with pending := rest },
                by simp [hc, hp, lookupA_modifyA_self], fun tr => ⟨rfl, rfl⟩⟩
            · exact ⟨id, by simp [hc, hp, lookupA_modifyA_ne he], fun tr => ⟨rfl, rfl⟩⟩

theorem runEvents_run_only (cfg : RunnerConfig)
    (upd : Strategy → List JobStatusUpdateRequest) (evs : List Ev) :
    RunOnly evs → ∀ s : SysState,
      (runEvents cfg upd s evs).registry = s.registry ∧
      (runEvents cfg upd s evs).nextTid = s.nextTid := by
  induction evs with
  | nil => exact fun _ s => ⟨rfl, rfl⟩
  | cons e rest ih =>
      intro hrun s
      obtain ⟨tid, rfl⟩ := hrun e (by simp)
      have hrun' : RunOnly rest := fun e' he' => hrun e' (by simp [he'])
      have h1 := runStep_registry tid s
      have h2 := ih hrun' (runStep tid s)
      have hstep : runEvents cfg upd s (Ev.run tid :: rest) =
          runEvents cfg upd (runStep tid s) rest := rfl
      rw [hstep]
      exact ⟨h2.1.trans h1.1, h2.2.trans h1.2⟩

theorem runEvents_taskRec (cfg : RunnerConfig)
    (upd : Strategy → List JobStatusUpdateRequest) (evs : List Ev) :
    RunOnly evs → ∀ (tid : Nat) (s : SysState) (tr : TaskRec),
      lookupA tid s.taskRecs = some tr →
      ∃ tr', lookupA tid (runEvents cfg upd s evs).taskRecs = some tr' ∧
        tr'.cancelled = tr.cancelled ∧ tr'.jobId = tr.jobId := by
  induction evs with
  | nil => exact fun _ tid s tr h => ⟨tr, h, rfl, rfl⟩
  | cons e rest ih =>
      intro hrun tid s tr h
      obtain ⟨t, rfl⟩ := hrun e (by simp)
      obtain ⟨f, hf, hpres⟩ := runStep_taskRec_lookup t tid s
      have h1 : lookupA tid (runStep t s).taskRecs = some (f tr) := by
        rw [hf, h]
        rfl
      obtain ⟨tr', h2, h3, h4⟩ :=
        ih (fun e' he' => hrun e' (by simp [he'])) tid (runStep t s) (f tr) h1
      have hstep : runEvents cfg upd s (Ev.run t :: rest) =
          runEvents cfg upd (runStep t s) rest := rfl
      rw [hstep]
      exact ⟨tr', h2, h3.trans (hpres tr).1, h4.trans (hpres tr).2⟩

theorem agree_refl (t1 : Nat) (s : SysState) (h : taskCancelled t1 s) :
    AgreeExceptTask t1 s s :=
  ⟨rfl, rfl, rfl, rfl, fun _ _ => rfl, h, h⟩

theorem agree_symm {t1 : Nat} {s s' : SysState} (h : AgreeExceptTask t1 s s') :
    AgreeExceptTask t1 s' s := by
  obtain ⟨h1, h2, h3, h4, h5, h6, h7⟩ := h
  exact ⟨h1.symm, h2.symm, h3.symm, h4.symm, fun tid hne => (h5 tid hne).symm, h7, h6⟩

theorem agree_trans {t1 : Nat} {s s' s'' : SysState}
    (h : AgreeExceptTask t1 s s') (h' : AgreeExceptTask t1 s' s'') :
    AgreeExceptTask t1 s s'' := by
  obtain ⟨h1, h2, h3, h4, h5, h6, _⟩ := h
  obtain ⟨g1, g2, g3, g4, g5, _, g7⟩ := h'
  exact ⟨h1.trans g1, h2.trans g2, h3.trans g3, h4.trans g4,
    fun tid hne => (h5 tid hne).trans (g5 tid hne), h6, g7⟩

theorem agree_runStep_cancelled (t1 : Nat) (s : SysState) (h : taskCancelled t1 s) :
    AgreeExceptTask t1 (runStep t1 s) s := by
  unfold runStep
  cases hl : lookupA t1 s.taskRecs with
  | none => exact agree_refl t1 s h
  | some tr =>
      have hc : tr.cancelled = true := h tr hl
      simp only [hc, if_true]
      refine ⟨rfl, rfl, rfl, rfl, ?_, ?_, h⟩
      · intro tid hne
        exact lookupA_modifyA_ne hne _ _
      · intro tr' htr'
        rw [lookupA_modifyA_self, hl] at htr'
        have htr2 : ({ tr with pending := [] } : TaskRec) = tr' := Option.some.inj htr'
        rw [← htr2]
        exact hc

theorem agree_runStep (t1 t : Nat) {s s' : SysState} (h : AgreeExceptTask t1 s s') :
    AgreeExceptTask t1 (runStep t s) (runStep t s') := by
  by_cases he : t = t1
  · subst he
    exact agree_trans (agree_runStep_cancelled t s h.2.2.2.2.2.1)
      (agree_trans h (agree_symm (agree_runStep_cancelled t s' h.2.2.2.2.2.2)))
  · obtain ⟨hn, hr, hj, hnow, hlook, hc1, hc2⟩ := h
    have hsame : lookupA t s.taskRecs = lookupA t s'.taskRecs := hlook t he
    unfold runStep
    rw [← hsame]
    cases hl : lookupA t s.taskRecs with
    | none => exact ⟨hn, hr, hj, hnow, hlook, hc1, hc2⟩
    | some tr =>
        by_cases hc : tr.cancelled
        · simp only [hc, if_true]
          refine ⟨hn, hr, hj, hnow, ?_, ?_, ?_⟩
          · intro tid hne
            by_cases ht : tid = t
            · subst ht
              rw [lookupA_modifyA_self, lookupA_modifyA_self, hlook tid hne]
            · rw [lookupA_modifyA_ne ht, lookupA_modifyA_ne ht]
              exact hlook tid hne
          · intro tr' htr'
            have htr2 : lookupA t1 (modifyA t
                (fun t' => { t' with pending := [] }) s.taskRecs) = some tr' := htr'
            rw [lookupA_modifyA_ne (fun hh => he hh.symm)] at htr2
            exact hc1 tr' htr2
          · intro tr' htr'
            have htr2 : lookupA t1 (modifyA t
                (fun t' => { t' with pending := [] }) s'.taskRecs) = some tr' := htr'
            rw [lookupA_modifyA_ne (fun hh => he hh.symm)] at htr2
            exact hc2 tr' htr2
        · simp only [hc]
          cases hp : tr.pending with
          | nil =>
              simp only [Bool.false_eq_true, if_false]
              exact ⟨hn, hr, hj, hnow, hlook, hc1, hc2⟩
          | cons u rest =>
              simp only [Bool.false_eq_true, if_false]
              refine ⟨hn, hr, by rw [hj, hnow], by rw [hnow], ?_, ?_, ?_⟩
              · intro tid hne
                by_cases ht : tid = t
                · subst ht
                  rw [lookupA_modifyA_self, lookupA_modifyA_self, hlook tid hne]
                · rw [lookupA_modifyA_ne ht, lookupA_modifyA_ne ht]
                  exact hlook tid hne
              · intro tr' htr'
                have htr2 : lookupA t1 (modifyA t
                    (fun t' => { t' with pending := rest }) s.taskRecs) = some tr' := htr'
                rw [lookupA_modifyA_ne (fun hh => he hh.symm)] at htr2
                exact hc1 tr' htr2
              · intro tr' htr'
                have htr2 : lookupA t1 (modifyA t
                    (fun t' => { t' with pending := rest }) s'.taskRecs) = some tr' := htr'
                rw [lookupA_modifyA_ne (fun hh => he hh.symm)] at htr2
                exact hc2 tr' htr2

theorem agree_runEvents (cfg : RunnerConfig)
    (upd : Strategy → List JobStatusUpdateRequest) (t1 : Nat) (evs : List Ev) :
    RunOnly evs → ∀ {s s' : SysState}, AgreeExceptTask t1 s s' →
      AgreeExceptTask t1 (runEvents cfg upd s evs)
        (runEvents cfg upd s' (evs.filter (fun e => e ≠ Ev.run t1))) := by
  induction evs with
  | nil => exact fun _ {s s'} h => h
  | cons e rest ih =>
      intro hrun s s' h
      obtain ⟨tid, rfl⟩ := hrun e (by simp)
      have hrun' : RunOnly rest := fun e' he' => hrun e' (by simp [he'])
      by_cases he : tid = t1
      · subst he
        have hfil : (Ev.run tid :: rest).filter (fun e => e ≠ Ev.run tid) =
            rest.filter (fun e => e ≠ Ev.run tid) := by
          simp [List.filter_cons]
        rw [hfil]
        have h1 : AgreeExceptTask tid (runStep tid s) s' :=
          agree_trans (agree_runStep_cancelled tid s h.2.2.2.2.2.1) h
        have hstep : runEvents cfg upd s (Ev.run tid :: rest) =
            runEvents cfg upd (runStep tid s) rest := rfl
        rw [hstep]
        exact ih hrun' h1
      · have hfil : (Ev.run tid :: rest).filter (fun e => e ≠ Ev.run t1) =
            Ev.run tid :: rest.filter (fun e => e ≠ Ev.run t1) := by
          simp [List.filter_cons, he]
        rw [hfil]
        have h1 := agree_runStep t1 tid h
        have hstep : runEvents cfg upd s (Ev.run tid :: rest) =
            runEvents cfg upd (runStep tid s) rest := rfl
        have hstep' : runEvents cfg upd s' (Ev.run tid :: rest.filter (fun e => e ≠ Ev.run t1)) =
            runEvents cfg upd (runStep tid s') (rest.filter (fun e => e ≠ Ev.run t1)) := rfl
        rw [hstep, hstep']
        exact ih hrun' h1

theorem schedule_some (cfg : RunnerConfig)
    (upd : Strategy → List JobStatusUpdateRequest) (strat : Strategy)
    (h : selectStrategy cfg = some strat) (j : Nat) (s : SysState) :
    (schedule cfg upd j s).error = none ∧
    (schedule cfg upd j s).state.nextTid = s.nextTid + 1 ∧
    (schedule cfg upd j s).state.registry = upsert j s.nextTid s.registry ∧
    (schedule cfg upd j s).state.jobs = s.jobs ∧
    (schedule cfg upd j s).state.now = s.now ∧
    (schedule cfg upd j s).state.taskRecs =
      upsert s.nextTid ⟨j, upd strat, false⟩
        (match lookupA j s.registry with
         | some tid => modifyA tid (fun t => { t with cancelled := true }) s.taskRecs
         | none => s.taskRecs) := by
  unfold schedule cancelTask
  cases lookupA j s.registry <;> simp [h]

/-- C1: calling `schedule` again for a job id whose earlier task is still
registered cancels that task before creating the new one; the cancelled task
applies no further status update: running any sequence of scheduling turns
from the post-supersession state produces the same job store as running it
with every turn of the first task deleted, so the job's final status and notes
come only from the second task's effects. -/
theorem schedule_supersedes (cfg : RunnerConfig)
    (upd : Strategy → List JobStatusUpdateRequest) (strat : Strategy)
    (hstrat : selectStrategy cfg = some strat)
    (s0 : SysState) (j t1 : Nat) (ht1 : t1 = s0.nextTid)
    (s1 : SysState) (hs1 : s1 = (schedule cfg upd j s0).state)
    (evs1 : List Ev) (hrun1 : RunOnly evs1)
    (s2' : SysState) (hs2' : s2' = runEvents cfg upd s1 evs1)
    (t2 : Nat) (ht2 : t2 = s2'.nextTid)
    (s2 : SysState) (hs2 : s2 = (schedule cfg upd j s2').state) :
    (∃ tr, lookupA t1 s2.taskRecs = some tr ∧ tr.cancelled = true) ∧
    lookupA j s2.registry = some t2 ∧
    lookupA t2 s2.taskRecs = some ⟨j, upd strat, false⟩ ∧
    (∀ evs2, RunOnly evs2 →
      (runEvents cfg upd s2 evs2).jobs =
        (runEvents cfg upd s2 (evs2.filter (fun e => e ≠ Ev.run t1))).jobs) := by
  obtain ⟨-, hnext1, hreg1, -, -, htask1⟩ := schedule_some cfg upd strat hstrat j s0
  have hreg1' : lookupA j s1.registry = some t1 := by
    rw [hs1, hreg1, ht1]
    exact lookupA_upsert_self ..
  have htask1' : lookupA t1 s1.taskRecs = some ⟨j, upd strat, false⟩ := by
    rw [hs1, htask1, ht1]
    exact lookupA_upsert_self ..
  have hnext1' : s1.nextTid = t1 + 1 := by
    rw [hs1, hnext1, ht1]
  have hpres := runEvents_run_only cfg upd evs1 hrun1 s1
  have hreg2' : lookupA j s2'.registry = some t1 := by
    rw [hs2', hpres.1]
    exact hreg1'
  have hnext2' : s2'.nextTid = t1 + 1 := by
    rw [hs2', hpres.2]
    exact hnext1'
  obtain ⟨tr1, htr1, hc1, hj1⟩ :=
    runEvents_taskRec cfg upd evs1 hrun1 t1 s1 ⟨j, upd strat, false⟩ htask1'
  rw [← hs2'] at htr1
  obtain ⟨-, hnext2, hreg2, -, -, htask2⟩ := schedule_some cfg upd strat hstrat j s2'
  have hne : t1 ≠ s2'.nextTid := by
    rw [hnext2']
    omega
  have hs2task : s2.taskRecs =
      upsert s2'.nextTid ⟨j, upd strat, false⟩
        (modifyA t1 (fun t => { t with cancelled := true }) s2'.taskRecs) := by
    rw [hs2, htask2, hreg2']
  have hlookt1 : lookupA t1 s2.taskRecs = some { tr1 with cancelled := true } := by
    rw [hs2task, lookupA_upsert_ne hne, lookupA_modifyA_self, htr1]
    rfl
  refine ⟨⟨{ tr1 with cancelled := true }, hlookt1, rfl⟩, ?_, ?_, ?_⟩
  · rw [hs2, hreg2, ht2]
    exact lookupA_upsert_self ..
  · rw [hs2task, ht2]
    exact lookupA_upsert_self ..
  · intro evs2 hrun2
    have hcanc : taskCancelled t1 s2 := by
      intro tr htr
      rw [hlookt1] at htr
      have h2 := Option.some.inj htr
      rw [← h2]
    exact (agree_runEvents cfg upd t1 evs2 hrun2 (agree_refl t1 s2 hcanc)).2.2.1

/-- Witness for C1: superseding a scheduled task for job 5 installs task 1 in
the registry, and from then on a turn of the cancelled task 0 has no effect on
the job store. -/
theorem schedule_supersedes_witness :
    lookupA 5 ((schedule ⟨false, none, [], true⟩
        (fun _ => ([] : List JobStatusUpdateRequest)) 5
        ((schedule ⟨false, none, [], true⟩ (fun _ => []) 5
          ⟨0, [], [], [], 0⟩).state)).state).registry = some 1 ∧
    lookupA 1 ((schedule ⟨false, none, [], true⟩
        (fun _ => ([] : List JobStatusUpdateRequest)) 5
        ((schedule ⟨false, none, [], true⟩ (fun _ => []) 5
          ⟨0, [], [], [], 0⟩).state)).state).taskRecs = some ⟨5, [], false⟩ ∧
    (runEvents ⟨false, none, [], true⟩ (fun _ => [])
        ((schedule ⟨false, none, [], true⟩ (fun _ => []) 5
          ((schedule ⟨false, none, [], true⟩ (fun _ => []) 5
            ⟨0, [], [], [], 0⟩).state)).state) [Ev.run 0]).jobs =
      (runEvents ⟨false, none, [], true⟩ (fun _ => [])
        ((schedule ⟨false, none, [], true⟩ (fun _ => []) 5
          ((schedule ⟨false, none, [], true⟩ (fun _ => []) 5
            ⟨0, [], [], [], 0⟩).state)).state)
        (List.filter (fun e => e ≠ Ev.run 0) [Ev.run 0])).jobs := by
  have h := schedule_supersedes ⟨false, none, [], true⟩ (fun _ => [])
    .simulatedTimeline rfl ⟨0, [], [], [], 0⟩ 5 0 rfl _ rfl []
    (fun e he => absurd he (List.not_mem_nil e)) _ rfl 1 rfl _ rfl
  refine ⟨h.2.1, h.2.2.1, ?_⟩
  exact h.2.2.2 [Ev.run 0] (fun e he => ⟨0, by simpa using he⟩)

/-- C4 counterexample: with simulation configured, schedule job 7 and give its
task (task 0) four turns, exhausting its pending updates — the task has
finished — yet the registry still maps job 7 to handle 0 and the task record
is still present: completion does not remove the handle. -/
theorem registry_handle_not_removed :
    lookupA 0 (runEvents ⟨false, none, [], true⟩ (fun _ => simulateUpdates 7)
      ⟨0, [], [], [(7, create_job 7 "auth0|u" 3 "barn" 4 none 0)], 0⟩
      [Ev.sched 7, Ev.run 0, Ev.run 0, Ev.run 0, Ev.run 0]).taskRecs =
      some ⟨7, [], false⟩ ∧
    lookupA 7 (runEvents ⟨false, none, [], true⟩ (fun _ => simulateUpdates 7)
      ⟨0, [], [], [(7, create_job 7 "auth0|u" 3 "barn" 4 none 0)], 0⟩
      [Ev.sched 7, Ev.run 0, Ev.run 0, Ev.run 0, Ev.run 0]).registry = some 0 := by
  exact ⟨rfl, rfl⟩

/-- C4 amended: a handle is never removed on task completion, failure or
cancellation — scheduling turns leave the registry untouched and the handle
persists until a later `schedule` for the same job id overwrites it; still, at
most one handle exists per job id (the registry keys stay duplicate-free) and
a later `schedule` call is never blocked by a stale entry: with a strategy
available it always succeeds and installs the fresh task's handle. -/
theorem registry_handle_retention (cfg : RunnerConfig)
    (upd : Strategy → List JobStatusUpdateRequest) (t j : Nat) (s : SysState)
    (strat : Strategy) (hstrat : selectStrategy cfg = some strat)
    (hnodup : (s.registry.map Prod.fst).Nodup) :
    (runStep t s).registry = s.registry ∧
    (schedule cfg upd j s).error = none ∧
    lookupA j (schedule cfg upd j s).state.registry = some s.nextTid ∧
    lookupA s.nextTid (schedule cfg upd j s).state.taskRecs = some ⟨j, upd strat, false⟩ ∧
    ((schedule cfg upd j s).state.registry.map Prod.fst).Nodup := by
  obtain ⟨herr, hnext, hreg, hjobs, hnow, htask⟩ := schedule_some cfg upd strat hstrat j s
  refine ⟨(runStep_registry t s).1, herr, ?_, ?_, ?_⟩
  · rw [hreg]
    exact lookupA_upsert_self ..
  · rw [htask]
    exact lookupA_upsert_self ..
  · rw [hreg]
    exact (keys_upsert ..).mpr hnodup

/-- Witness for the amended C4: a concrete schedule on an empty registry
succeeds and installs handle 0 for job 4. -/
theorem registry_handle_retention_witness :
    (schedule ⟨false, none, [], true⟩ (fun _ => ([] : List JobStatusUpdateRequest)) 4
      ⟨0, [], [], [], 0⟩).error = none ∧
    lookupA 4 (schedule ⟨false, none, [], true⟩ (fun _ => []) 4
      ⟨0, [], [], [], 0⟩).state.registry = some 0 := by
  have h := registry_handle_retention ⟨false, none, [], true⟩ (fun _ => []) 0 4
    ⟨0, [], [], [], 0⟩ .simulatedTimeline rfl (by simp)
  exact ⟨h.2.1, h.2.2.1⟩

/-- C5: the Simulated-Timeline executor, run to completion uncancelled,
applies exactly the four documented status updates in order — each step
preceded by its fixed delay of 3, 4, 3 and 2 seconds — and every starting job
ends `completed` with progress `1.0` and the placeholder model reference
attached on the final step. -/
theorem simulate_completes (jobId : Nat) (job : Job) (t0 : Nat) :
    simulateSteps.map (fun s => s.1) = [3, 4, 3, 2] ∧
    simulateUpdates jobId =
      [ { status := some .processing, progress := some (mkRat 2 10)
          notes := some "Running structure-from-motion", model_file_name := none }
      , { status := some .meshing, progress := some (mkRat 6 10)
          notes := some "Generating dense mesh", model_file_name := none }
      , { status := some .texturing, progress := some (mkRat 85 100)
          notes := some "Baking textures", model_file_name := none }
      , { status := some .completed, progress := some 1
          notes := some "Reconstruction complete"
          model_file_name := some (save_model_placeholder jobId) } ] ∧
    (applyUpdates job (simulateUpdates jobId) t0).status = .completed ∧
    (applyUpdates job (simulateUpdates jobId) t0).progress = 1 ∧
    (applyUpdates job (simulateUpdates jobId) t0).model_file_name =
      some (save_model_placeholder jobId) := by
  exact ⟨rfl, rfl, rfl, rfl, rfl⟩

/-- C6: evaluating the Subprocess-Pipeline executor.  A command exiting 7
leaves the job `failed` at progress `0.0` with the exit code in the notes, and
a zero exit over an empty work directory leaves it `failed` with the
"no artifact" note, as claimed.  But in the claim's remaining case the
executor also fails: although the default patterns locate `model.glb` in a
directory that contains it, `_run_pipeline` (`main.py`, line 222) passes
`prepare_work_dir(...)` — which empties the directory — to the locator, so a
zero-exit run whose command produced `model.glb` still ends `failed`/`0.0`
with the "no artifact" note instead of persisting the artifact and
completing. -/
theorem run_pipeline_eval :
    (applyUpdates (create_job 7 "auth0|u" 3 "barn" 4 none 0)
        (run_pipeline defaultArtifactPatterns ⟨7, [], fun r => r⟩) 1).status = .failed ∧
    (applyUpdates (create_job 7 "auth0|u" 3 "barn" 4 none 0)
        (run_pipeline defaultArtifactPatterns ⟨7, [], fun r => r⟩) 1).progress = 0 ∧
    (applyUpdates (create_job 7 "auth0|u" 3 "barn" 4 none 0)
        (run_pipeline defaultArtifactPatterns ⟨7, [], fun r => r⟩) 1).notes =
      some "Pipeline exited with code 7" ∧
    (applyUpdates (create_job 7 "auth0|u" 3 "barn" 4 none 0)
        (run_pipeline defaultArtifactPatterns ⟨0, [], fun r => r⟩) 1).status = .failed ∧
    (applyUpdates (create_job 7 "auth0|u" 3 "barn" 4 none 0)
        (run_pipeline defaultArtifactPatterns ⟨0, [], fun r => r⟩) 1).progress = 0 ∧
    (applyUpdates (create_job 7 "auth0|u" 3 "barn" 4 none 0)
        (run_pipeline defaultArtifactPatterns ⟨0, [], fun r => r⟩) 1).notes =
      some "Pipeline finished but no model artifact was found." ∧
    locate_artifact defaultArtifactPatterns ["model.glb"] = some "model.glb" ∧
    (applyUpdates (create_job 7 "auth0|u" 3 "barn" 4 none 0)
        (run_pipeline defaultArtifactPatterns ⟨0, ["model.glb"], fun r => r⟩) 1).status =
      .failed ∧
    (applyUpdates (create_job 7 "auth0|u" 3 "barn" 4 none 0)
        (run_pipeline defaultArtifactPatterns ⟨0, ["model.glb"], fun r => r⟩) 1).notes =
      some "Pipeline finished but no model artifact was found." ∧
    (applyUpdates (create_job 7 "auth0|u" 3 "barn" 4 none 0)
        (run_pipeline defaultArtifactPatterns ⟨0, ["model.glb"], fun r => r⟩) 1).model_file_name =
      none := by
  refine ⟨rfl, rfl, rfl, rfl, rfl, rfl, rfl, rfl, rfl, ?_⟩
  decide

theorem update_job_idem (j : Job) (p : JobStatusUpdateRequest) (t1 t2 : Nat) :
    update_job (update_job j p t1) p t2 = { update_job j p t1 with updated_at := t2 } := by
  rw [update_job_def (update_job j p t1) p t2, update_job_def j p t1]
  rcases hst : p.status with _ | s <;> rcases hpr : p.progress with _ | pr <;>
    rcases hm : p.model_file_name with _ | m <;> rcases hn : p.notes with _ | n <;>
    simp_all

/-- C7 counterexample: a job that already carries a model reference keeps it
when a callback whose artifact ingestion fails is reconciled: the final model
reference is the old stored one, not null as the claim states — the override
patch merely omits the field and `update_job` skips absent fields. -/
theorem callback_model_reference_not_nulled :
    (match reconstruction_status_callback (fun _ => .error "connection refused")
        [(7, { create_job 7 "auth0|u" 3 "barn" 4 none 0 with
               model_file_name := some "data/models/7/old.glb" })]
        { job_id := 7, status := some .completed, progress := some 1
          message := some "done", model_uri := some "http://recon.example/model.glb" } 9 with
      | .ok js => (lookupA 7 js).map fun j => (j.status, j.progress, j.notes, j.model_file_name)
      | .error _ => none) =
      some (.failed, 0, some "done – connection refused", some "data/models/7/old.glb") := by
  rfl

/-- C7 amended: reconciling an unknown job id raises the not-found error
before any write; reconciling a known job with an artifact URI whose ingestion
fails applies the patch `failed`/0.0 whose notes compose the caller's message
with the ingestion failure detail and which carries no artifact reference, so
the job ends `failed` at progress `0.0` with the composed notes and its stored
model reference left exactly as it was — null whenever the job had none. -/
theorem callback_reconciler (ingest : String → Except String String)
    (jobs : List (Nat × Job)) (p : ReconstructionStatusCallback) (now : Nat) :
    (lookupA p.job_id jobs = none →
      reconstruction_status_callback ingest jobs p now = .error "Job not found") ∧
    (∀ job uri e, lookupA p.job_id jobs = some job → p.model_uri = some uri →
      ingest uri = .error e →
      ∃ jobs', reconstruction_status_callback ingest jobs p now = .ok jobs' ∧
        lookupA p.job_id jobs' = some (update_job job
          { status := some .failed, progress := some 0
            notes := some (pyOr p.message "Artifact retrieval failed" ++ " – " ++ e)
            model_file_name := none } now) ∧
        (update_job job
          { status := some .failed, progress := some 0
            notes := some (pyOr p.message "Artifact retrieval failed" ++ " – " ++ e)
            model_file_name := none } now).status = .failed ∧
        (update_job job
          { status := some .failed, progress := some 0
            notes := some (pyOr p.message "Artifact retrieval failed" ++ " – " ++ e)
            model_file_name := none } now).progress = 0 ∧
        (update_job job
          { status := some .failed, progress := some 0
            notes := some (pyOr p.message "Artifact retrieval failed" ++ " – " ++ e)
            model_file_name := none } now).notes =
          some (pyOr p.message "Artifact retrieval failed" ++ " – " ++ e) ∧
        (update_job job
          { status := some .failed, progress := some 0
            notes := some (pyOr p.message "Artifact retrieval failed" ++ " – " ++ e)
            model_file_name := none } now).model_file_name = job.model_file_name) := by
  constructor
  · intro hnone
    unfold reconstruction_status_callback
    rw [hnone]
  · intro job uri e hjob huri hing
    have hpatch : callbackPatch ingest p =
        { status := some .failed, progress := some 0
          notes := some (pyOr p.message "Artifact retrieval failed" ++ " – " ++ e)
          model_file_name := none } := by
      unfold callbackPatch
      simp only [huri, hing]
    refine ⟨modifyA p.job_id (fun j => update_job j (callbackPatch ingest p) now) jobs,
      ?_, ?_, ?_, ?_, ?_, ?_⟩
    · unfold reconstruction_status_callback
      rw [hjob]
    · rw [lookupA_modifyA_self, hjob, hpatch]
      rfl
    · rw [update_job_def]
    · rw [update_job_def]
      rfl
    · rw [update_job_def]
    · rw [update_job_def]

/-- Witness for the amended C7: the not-found branch for job id 9, and the
failing-ingestion branch for job 3, whose stored model reference was none and
stays none while the job turns `failed`/0.0 with the composed note. -/
theorem callback_reconciler_witness :
    reconstruction_status_callback (fun _ => Except.error "connection refused")
      [(3, create_job 3 "auth0|u" 1 "barn" 2 none 0)]
      { job_id := 9, model_uri := some "http://recon.example/a.glb" } 5 =
      .error "Job not found" ∧
    (∃ jobs', reconstruction_status_callback (fun _ => Except.error "connection refused")
        [(3, create_job 3 "auth0|u" 1 "barn" 2 none 0)]
        { job_id := 3, message := some "submitted"
          model_uri := some "http://recon.example/a.glb" } 5 = .ok jobs' ∧
      lookupA 3 jobs' = some (update_job (create_job 3 "auth0|u" 1 "barn" 2 none 0)
        { status := some .failed, progress := some 0
          notes := some "submitted – connection refused"
          model_file_name := none } 5)) := by
  constructor
  · exact (callback_reconciler (fun _ => Except.error "connection refused")
      [(3, create_job 3 "auth0|u" 1 "barn" 2 none 0)]
      { job_id := 9, model_uri := some "http://recon.example/a.glb" } 5).1 rfl
  · obtain ⟨jobs', h1, h2, -⟩ := (callback_reconciler (fun _ => Except.error "connection refused")
      [(3, create_job 3 "auth0|u" 1 "barn" 2 none 0)]
      { job_id := 3, message := some "submitted"
        model_uri := some "http://recon.example/a.glb" } 5).2
      (create_job 3 "auth0|u" 1 "barn" 2 none 0) "http://recon.example/a.glb"
      "connection refused" rfl rfl rfl
    exact ⟨jobs', h1, h2⟩

/-- C8: re-delivering the identical callback payload is idempotent: the second
reconciliation succeeds and leaves the job in the same state as the first,
apart from `updated_at` advancing to the second write time; every other job is
untouched. -/
theorem callback_idempotent (ingest : String → Except String String)
    (jobs jobs1 : List (Nat × Job)) (p : ReconstructionStatusCallback) (t1 t2 : Nat)
    (h1 : reconstruction_status_callback ingest jobs p t1 = .ok jobs1) :
    ∃ jobs2, reconstruction_status_callback ingest jobs1 p t2 = .ok jobs2 ∧
      lookupA p.job_id jobs2 =
        (lookupA p.job_id jobs1).map (fun j => { j with updated_at := t2 }) ∧
      ∀ k, k ≠ p.job_id → lookupA k jobs2 = lookupA k jobs1 := by
  unfold reconstruction_status_callback at h1
  rcases hl : lookupA p.job_id jobs with _ | j0
  · rw [hl] at h1
    exact absurd h1 (by simp)
  · rw [hl] at h1
    have hjobs1 : jobs1 =
        modifyA p.job_id (fun j => update_job j (callbackPatch ingest p) t1) jobs :=
      (Except.ok.inj h1).symm
    have hlook1 : lookupA p.job_id jobs1 =
        some (update_job j0 (callbackPatch ingest p) t1) := by
      rw [hjobs1, lookupA_modifyA_self, hl]
      rfl
    refine ⟨modifyA p.job_id (fun j => update_job j (callbackPatch ingest p) t2) jobs1,
      ?_, ?_, ?_⟩
    · unfold reconstruction_status_callback
      rw [hlook1]
    · rw [lookupA_modifyA_self, hlook1]
      show some (update_job (update_job j0 (callbackPatch ingest p) t1)
        (callbackPatch ingest p) t2) = _
      rw [update_job_idem]
      rfl
    · intro k hk
      rw [lookupA_modifyA_ne hk]

/-- Witness for C8: re-delivering a concrete progress callback to job 3 keeps
the job at the same state with only `updated_at` moved to the second write
time. -/
theorem callback_idempotent_witness :
    ∃ jobs2, reconstruction_status_callback (fun _ => Except.error "boom")
        [(3, { id := 3, user_id := "auth0|u", upload_id := 1, dataset_name := "barn"
               photo_count := 2, external_job_id := none, status := .processing
               progress := mkRat 1 2, notes := some "halfway", model_file_name := none
               created_at := 0, updated_at := 4, download_events := [] })]
        { job_id := 3, status := some .processing, progress := some (mkRat 1 2)
          message := some "halfway", model_uri := none } 5 = .ok jobs2 ∧
      lookupA 3 jobs2 =
        some { id := 3, user_id := "auth0|u", upload_id := 1, dataset_name := "barn"
               photo_count := 2, external_job_id := none, status := .processing
               progress := mkRat 1 2, notes := some "halfway", model_file_name := none
               created_at := 0, updated_at := 5, download_events := [] } := by
  obtain ⟨jobs2, ha, hb, -⟩ := callback_idempotent (fun _ => Except.error "boom")
    [(3, create_job 3 "auth0|u" 1 "barn" 2 none 0)]
    [(3, { id := 3, user_id := "auth0|u", upload_id := 1, dataset_name := "barn"
           photo_count := 2, external_job_id := none, status := .processing
           progress := mkRat 1 2, notes := some "halfway", model_file_name := none
           created_at := 0, updated_at := 4, download_events := [] })]
    { job_id := 3, status := some .processing, progress := some (mkRat 1 2)
      message := some "halfway", model_uri := none } 4 5 rfl
  refine ⟨jobs2, ha, ?_⟩
  rw [hb]
  rfl

end BuildingGen
